import Mathlib

/-!
Verification of the sensor telemetry ingestion engine of `pogodynka-air`
(`src/app_bck2.py`): the Plantower frame decoder, the serial stream
resynchronizer loop of `pms_worker`, the shared `SensorState` health record
and its success/failure transitions, and the BMP280 address-discovery loop
of `bmp_worker`.

Bytes are modelled as natural numbers (with explicit `< 256` bounds where a
claim needs them); Python's 16-bit mask `& 0xFFFF` is modelled as `% 65536`;
wall-clock timestamps are modelled as naturals.
-/

namespace Pogodynka

/-- Source `u16(be_hi, be_lo)`: big-endian 16-bit value `(be_hi << 8) | be_lo`. -/
def u16 (be_hi be_lo : Nat) : Nat := (be_hi <<< 8) ||| be_lo

/-- One PM concentration triple (PM1.0 / PM2.5 / PM10), as in the dicts built
by `parse_plantower_frame`. -/
structure PMTriple where
  pm1 : Nat
  pm25 : Nat
  pm10 : Nat
deriving DecidableEq, Repr

/-- The decoder's result dict: a CF=1 triple and an ATM triple. -/
structure ParsedFrame where
  cf1 : PMTriple
  atm : PMTriple
deriving DecidableEq, Repr

/-- Source `parse_plantower_frame(frame)`: `None` unless the frame is exactly
32 bytes, starts with `0x42 0x4D`, and the big-endian 16-bit value at bytes
30–31 equals the sum of bytes 0–29 masked to 16 bits; otherwise returns the
six 16-bit big-endian fields at offsets 4,6,8 (CF1) and 10,12,14 (ATM). -/
def parse_plantower_frame (frame : List Nat) : Option ParsedFrame :=
  if frame.length ≠ 32 then none
  else if frame.getD 0 0 ≠ 0x42 ∨ frame.getD 1 0 ≠ 0x4D then none
  else if (frame.take 30).sum % 65536 ≠ u16 (frame.getD 30 0) (frame.getD 31 0) then none
  else
      some ⟨⟨u16 (frame.getD 4 0) (frame.getD 5 0),
             u16 (frame.getD 6 0) (frame.getD 7 0),
             u16 (frame.getD 8 0) (frame.getD 9 0)⟩,
            ⟨u16 (frame.getD 10 0) (frame.getD 11 0),
             u16 (frame.getD 12 0) (frame.getD 13 0),
             u16 (frame.getD 14 0) (frame.getD 15 0)⟩⟩

/-- Python `buf.find(b"\x42\x4D")`: index of the first occurrence of the
two-byte marker, `none` when absent (Python returns `-1`). -/
def findMarker : List Nat → Option Nat
  | [] => none
  | [_] => none
  | a :: b :: t =>
    if a = 0x42 ∧ b = 0x4D then some 0
    else (findMarker (b :: t)).map (· + 1)

/-- One complete pass of the inner frame-scanning loop of `pms_worker`
(the `while True` starting at `i = buf.find(b"\x42\x4D")`): returns the
list of accepted ATM triples, in order, together with the buffer left for
the next read.  Mirrors the source: no marker keeps at most the last byte;
a marker with fewer than 32 bytes from it keeps `buf[i:]`; otherwise the
32-byte window is consumed, parsed, sanity-checked (`pm25/pm10/pm1 > 5000`
on the ATM triple drops it), and scanning continues on `buf[i+32:]`. -/
def scanFrames (buf : List Nat) : List PMTriple × List Nat :=
  match findMarker buf with
  | none => ([], if 1 < buf.length then buf.drop (buf.length - 1) else buf)
  | some i =>
    if _hlt : buf.length < i + 32 then ([], buf.drop i)
    else
      match parse_plantower_frame ((buf.drop i).take 32) with
      | none => scanFrames (buf.drop (i + 32))
      | some parsed =>
        if 5000 < parsed.atm.pm25 ∨ 5000 < parsed.atm.pm10 ∨ 5000 < parsed.atm.pm1 then
          scanFrames (buf.drop (i + 32))
        else
          let r := scanFrames (buf.drop (i + 32))
          (parsed.atm :: r.1, r.2)
termination_by buf.length
decreasing_by all_goals (simp only [List.length_drop]; omega)

/-- Source dataclass `SensorState` (payload type `α` replaces the loose dict:
`data = {}` at start is modelled as `none`). -/
structure SensorState (α : Type) where
  status : String
  last_ok_ts : Option Nat
  last_try_ts : Option Nat
  error : String
  data : Option α
deriving DecidableEq, Repr

/-- The dataclass defaults: `status="INIT"`, no timestamps, empty error and
payload (`aq_state` / `env_state` at process start). -/
def initState (α : Type) : SensorState α := ⟨"INIT", none, none, "", none⟩

/-- The success branch common to both workers (source lines 188–196 and
243–247): set the payload, `status = "OK"`, `last_ok_ts = now`, clear the
error.  `last_try_ts` is untouched here. -/
def on_success (t : Nat) (p : α) (s : SensorState α) : SensorState α :=
  { s with data := some p, status := "OK", last_ok_ts := some t, error := "" }

/-- The `except` branch common to both workers (source lines 200–204 and
251–255): `status = "ERR"` when no success ever happened (`last_ok_ts is
None`), else `"WARN"`; record the error; everything else untouched. -/
def on_failure (e : String) (s : SensorState α) : SensorState α :=
  { s with status := if s.last_ok_ts = none then "ERR" else "WARN", error := e }

/-- The kinds of writes a worker performs on its health record, in program
order: marking the start of an attempt (`last_try_ts = now_ts()`), a
validated successful read, or a caught failure. -/
inductive WorkerEvent (α : Type) where
  | attempt (t : Nat)
  | success (t : Nat) (p : α)
  | failure (e : String)
deriving DecidableEq, Repr

/-- Apply one worker write to the record. -/
def step : WorkerEvent α → SensorState α → SensorState α
  | .attempt t, s => { s with last_try_ts := some t }
  | .success t p, s => on_success t p s
  | .failure e, s => on_failure e s

/-- Apply a whole sequence of worker writes, oldest first. -/
def run (evs : List (WorkerEvent α)) (s : SensorState α) : SensorState α :=
  evs.foldl (fun st e => step e st) s

/-- Order on optional timestamps: absent precedes everything; a present
timestamp never becomes absent and never decreases. -/
def okLe : Option Nat → Option Nat → Bool
  | none, _ => true
  | some _, none => false
  | some a, some b => decide (a ≤ b)

/-- The clock read by `now_ts()` is monotone: every success timestamp in the
sequence is at least the preceding recorded success time. -/
def clockOK : Option Nat → List (WorkerEvent α) → Bool
  | _, [] => true
  | cur, .success t _ :: rest => okLe cur (some t) && clockOK (some t) rest
  | cur, .attempt _ :: rest => clockOK cur rest
  | cur, .failure _ :: rest => clockOK cur rest

/-- One iteration of `pms_worker`'s read loop on an open serial port
(source lines 152–198): record the attempt time, append the chunk read
(0–128 bytes), scan for frames, and apply the success transition for every
accepted frame.  State is the pair (accumulation buffer, health record). -/
def pms_cycle (t : Nat) (chunk : List Nat) (st : List Nat × SensorState PMTriple) :
    List Nat × SensorState PMTriple :=
  ((scanFrames (st.1 ++ chunk)).2,
   (scanFrames (st.1 ++ chunk)).1.foldl (fun s pm => on_success t pm s)
     { st.2 with last_try_ts := some t })

/-- The BMP280 address-discovery loop of `bmp_worker` (source lines 228–235):
probe each candidate address in order; the first address whose handshake
succeeds is kept and `last_err` is reset to `None`; a failed probe records
its fault in `last_err` and the loop moves on.  Returns the pair
(`bmp`, `last_err`) at loop exit. -/
def scanAddrs (probe : Nat → Except String β) : List Nat → Option β × Option String
  | [] => (none, none)
  | a :: rest =>
    match probe a with
    | .ok d => (some d, none)
    | .error e =>
      match scanAddrs probe rest with
      | (some d, _) => (some d, none)
      | (none, none) => (none, some e)
      | (none, some e2) => (none, some e2)

/-- Outcome of the body of `bmp_worker`'s `try` block after the attempt
timestamp is taken: either a successful (temperature, pressure) reading or
a raised exception (transport creation, address discovery, or read). -/
inductive BmpResult (β : Type) where
  | ok (reading : β)
  | fail (e : String)
deriving DecidableEq, Repr

/-- One iteration of `bmp_worker`'s outer loop (source lines 218–255):
`last_try_ts` is set first, before any bus transaction; then the attempt
either succeeds or the caught exception runs the failure branch. -/
def bmp_iter (t : Nat) (res : BmpResult β) (s : SensorState β) : SensorState β :=
  let s1 := { s with last_try_ts := some t }
  match res with
  | .ok r => on_success t r s1
  | .fail e => on_failure e s1

/-! Helper lemmas: unfolding `scanFrames` one step, and inverting
`findMarker` and `parse_plantower_frame`. -/

theorem scanFrames_no_marker (buf : List Nat) (h : findMarker buf = none) :
    scanFrames buf = ([], if 1 < buf.length then buf.drop (buf.length - 1) else buf) := by
  rw [scanFrames.eq_def, h]

theorem scanFrames_incomplete (buf : List Nat) (i : Nat)
    (hm : findMarker buf = some i) (hs : buf.length < i + 32) :
    scanFrames buf = ([], buf.drop i) := by
  rw [scanFrames.eq_def, hm]
  simp [hs]

theorem scanFrames_badframe (buf : List Nat) (i : Nat)
    (hm : findMarker buf = some i) (hs : ¬ buf.length < i + 32)
    (hp : parse_plantower_frame ((buf.drop i).take 32) = none) :
    scanFrames buf = scanFrames (buf.drop (i + 32)) := by
  rw [scanFrames.eq_def, hm]
  simp [hs, hp]

theorem scanFrames_sanity_drop (buf : List Nat) (i : Nat) (p : ParsedFrame)
    (hm : findMarker buf = some i) (hs : ¬ buf.length < i + 32)
    (hp : parse_plantower_frame ((buf.drop i).take 32) = some p)
    (hbig : 5000 < p.atm.pm25 ∨ 5000 < p.atm.pm10 ∨ 5000 < p.atm.pm1) :
    scanFrames buf = scanFrames (buf.drop (i + 32)) := by
  rw [scanFrames.eq_def, hm]
  simp [hs, hp, hbig]

theorem scanFrames_accept (buf : List Nat) (i : Nat) (p : ParsedFrame)
    (hm : findMarker buf = some i) (hs : ¬ buf.length < i + 32)
    (hp : parse_plantower_frame ((buf.drop i).take 32) = some p)
    (h1 : p.atm.pm25 ≤ 5000) (h2 : p.atm.pm10 ≤ 5000) (h3 : p.atm.pm1 ≤ 5000) :
    scanFrames buf =
      (p.atm :: (scanFrames (buf.drop (i + 32))).1, (scanFrames (buf.drop (i + 32))).2) := by
  rw [scanFrames.eq_def, hm]
  have hbig : ¬ (5000 < p.atm.pm25 ∨ 5000 < p.atm.pm10 ∨ 5000 < p.atm.pm1) := by omega
  simp [hs, hp, hbig]

theorem findMarker_some_shape : ∀ (buf : List Nat) (i : Nat),
    findMarker buf = some i → ∃ t, buf.drop i = 0x42 :: 0x4D :: t
  | [], i, h => by simp [findMarker] at h
  | [_], i, h => by simp [findMarker] at h
  | a :: b :: t, i, h => by
    rw [findMarker] at h
    by_cases hab : a = 0x42 ∧ b = 0x4D
    · rw [if_pos hab] at h
      obtain rfl : (0 : Nat) = i := Option.some.inj h
      exact ⟨t, by simp [hab.1, hab.2]⟩
    · rw [if_neg hab] at h
      obtain ⟨j, hj, rfl⟩ := Option.map_eq_some'.mp h
      obtain ⟨t', ht'⟩ := findMarker_some_shape (b :: t) j hj
      exact ⟨t', by simpa using ht'⟩

theorem findMarker_some_le (buf : List Nat) (i : Nat)
    (h : findMarker buf = some i) : i + 2 ≤ buf.length := by
  obtain ⟨t, ht⟩ := findMarker_some_shape buf i h
  have := congrArg List.length ht
  simp [List.length_drop] at this
  omega

theorem parse_eq_some_inv (frame : List Nat) (p : ParsedFrame)
    (h : parse_plantower_frame frame = some p) :
    frame.length = 32 ∧ frame.getD 0 0 = 0x42 ∧ frame.getD 1 0 = 0x4D ∧
    (frame.take 30).sum % 65536 = u16 (frame.getD 30 0) (frame.getD 31 0) ∧
    p = ⟨⟨u16 (frame.getD 4 0) (frame.getD 5 0),
          u16 (frame.getD 6 0) (frame.getD 7 0),
          u16 (frame.getD 8 0) (frame.getD 9 0)⟩,
         ⟨u16 (frame.getD 10 0) (frame.getD 11 0),
          u16 (frame.getD 12 0) (frame.getD 13 0),
          u16 (frame.getD 14 0) (frame.getD 15 0)⟩⟩ := by
  unfold parse_plantower_frame at h
  split_ifs at h with h1 h2 h3
  push_neg at h1 h2 h3
  exact ⟨h1, h2.1, h2.2, h3, (Option.some.inj h).symm⟩

theorem parse_eq_some_intro (frame : List Nat)
    (h1 : frame.length = 32) (h2 : frame.getD 0 0 = 0x42) (h3 : frame.getD 1 0 = 0x4D)
    (h4 : (frame.take 30).sum % 65536 = u16 (frame.getD 30 0) (frame.getD 31 0)) :
    parse_plantower_frame frame =
      some ⟨⟨u16 (frame.getD 4 0) (frame.getD 5 0),
             u16 (frame.getD 6 0) (frame.getD 7 0),
             u16 (frame.getD 8 0) (frame.getD 9 0)⟩,
            ⟨u16 (frame.getD 10 0) (frame.getD 11 0),
             u16 (frame.getD 12 0) (frame.getD 13 0),
             u16 (frame.getD 14 0) (frame.getD 15 0)⟩⟩ := by
  unfold parse_plantower_frame
  rw [if_neg (by rw [h1]; simp), if_neg (by rw [h2, h3]; simp), if_neg (by rw [h4]; simp)]

end Pogodynka

namespace Pogodynka

/-! Concrete frames used as witnesses and counterexamples.  All three carry a
correct checksum (sum of bytes 0–29 is 341 = 0x0155 resp. 466 = 0x01D2). -/

/-- The spec's example frame: ATM fields `00 0A / 00 19 / 00 32`
(PM1=10, PM2.5=25, PM10=50), CF1 fields the same, correct checksum. -/
def exFrame : List Nat := [0x42,0x4D,0x00,0x1C, 0x00,0x0A,0x00,0x19,0x00,0x32,
  0x00,0x0A,0x00,0x19,0x00,0x32, 0,0,0,0,0,0,0,0,0,0,0,0,0,0, 0x01,0x55]

/-- Checksum-valid frame with CF1 PM1.0 = 6000 (bytes 4–5 = `17 70`) and a
plausible ATM triple 10/25/50. -/
def cexFrame : List Nat := [0x42,0x4D,0x00,0x1C, 0x17,0x70,0x00,0x19,0x00,0x32,
  0x00,0x0A,0x00,0x19,0x00,0x32, 0,0,0,0,0,0,0,0,0,0,0,0,0,0, 0x01,0xD2]

/-- Checksum-valid frame with ATM PM1.0 = 6000 (bytes 10–11 = `17 70`) and a
plausible CF1 triple 10/25/50. -/
def cexAtmFrame : List Nat := [0x42,0x4D,0x00,0x1C, 0x00,0x0A,0x00,0x19,0x00,0x32,
  0x17,0x70,0x00,0x19,0x00,0x32, 0,0,0,0,0,0,0,0,0,0,0,0,0,0, 0x01,0xD2]

/-- Variant of `exFrame` with its low checksum byte off by one: checksum mismatch. -/
def badFrame : List Nat := [0x42,0x4D,0x00,0x1C, 0x00,0x0A,0x00,0x19,0x00,0x32,
  0x00,0x0A,0x00,0x19,0x00,0x32, 0,0,0,0,0,0,0,0,0,0,0,0,0,0, 0x01,0x56]

/-- The empty buffer scans to nothing. -/
theorem scanFrames_nil : scanFrames ([] : List Nat) = ([], []) := by
  rw [scanFrames_no_marker [] rfl]
  rfl

/-- A list whose first two entries (via `getD`) are the marker bytes and whose
length is at least 2 has its first marker at index 0. -/
theorem findMarker_of_marker_head (l : List Nat) (h2 : 2 ≤ l.length)
    (h0 : l.getD 0 0 = 0x42) (h1 : l.getD 1 0 = 0x4D) : findMarker l = some 0 := by
  match l with
  | [] => simp at h2
  | [_] => simp at h2
  | a :: b :: t =>
    simp only [List.getD_cons_zero, List.getD_cons_succ] at h0 h1
    simp [findMarker, h0, h1]

/-! Invariant helpers for the health-record state machine. -/

/-- A property preserved by every single write is preserved by any sequence. -/
theorem run_inv (P : SensorState α → Prop)
    (hstep : ∀ (e : WorkerEvent α) (s : SensorState α), P s → P (step e s)) :
    ∀ (evs : List (WorkerEvent α)) (s : SensorState α), P s → P (run evs s)
  | [], _, h => h
  | e :: evs, s, h => run_inv P hstep evs (step e s) (hstep e s h)

/-- Status `"ERR"` implies no success ever: preserved by every write. -/
theorem step_err_inv (e : WorkerEvent α) (s : SensorState α)
    (h : s.status = "ERR" → s.last_ok_ts = none) :
    (step e s).status = "ERR" → (step e s).last_ok_ts = none := by
  cases e with
  | attempt t => exact h
  | success t p => intro hc; exact absurd hc (by simp [step, on_success])
  | failure e =>
    intro hc
    simp only [step, on_failure]
    by_cases hok : s.last_ok_ts = none
    · exact hok
    · simp only [step, on_failure, if_neg hok] at hc
      exact absurd hc (by decide)

/-- Empty payload while no success ever: preserved by every write. -/
theorem step_empty_inv (e : WorkerEvent α) (s : SensorState α)
    (h : s.last_ok_ts = none → s.data = none) :
    (step e s).last_ok_ts = none → (step e s).data = none := by
  cases e with
  | attempt t => exact h
  | success t p => intro hc; exact absurd hc (by simp [step, on_success])
  | failure e => exact h

theorem okLe_refl (a : Option Nat) : okLe a a = true := by
  cases a <;> simp [okLe]

theorem okLe_trans {a b c : Option Nat} (h1 : okLe a b = true) (h2 : okLe b c = true) :
    okLe a c = true := by
  cases a <;> cases b <;> cases c <;> (simp [okLe] at *; try omega)

/-- Under a monotone clock, `last_ok_ts` never moves backward over any write
sequence. -/
theorem run_ok_mono : ∀ (evs : List (WorkerEvent α)) (s : SensorState α),
    clockOK s.last_ok_ts evs = true → okLe s.last_ok_ts (run evs s).last_ok_ts = true
  | [], _, _ => okLe_refl _
  | .attempt t :: evs, s, h => by
    have hcl : clockOK (step (WorkerEvent.attempt t) s).last_ok_ts evs = true := by
      simpa [clockOK, step] using h
    exact run_ok_mono evs (step (.attempt t) s) hcl
  | .failure e :: evs, s, h => by
    have hcl : clockOK (step (WorkerEvent.failure e) s).last_ok_ts evs = true := by
      simpa [clockOK, step, on_failure] using h
    exact run_ok_mono evs (step (.failure e) s) hcl
  | .success t p :: evs, s, h => by
    simp only [clockOK, Bool.and_eq_true] at h
    have hstep : (step (WorkerEvent.success t p) s).last_ok_ts = some t := by
      simp [step, on_success]
    have htail : clockOK (step (WorkerEvent.success t p) s).last_ok_ts evs = true := by
      rw [hstep]; exact h.2
    have hmono := run_ok_mono evs (step (.success t p) s) htail
    rw [hstep] at hmono
    exact okLe_trans h.1 hmono

/-- Folding `on_success` over any list of accepted frames never touches
accepted frames keeps it. -/
theorem foldl_on_success_last_try (t : Nat) :
    ∀ (ps : List α) (s : SensorState α),
      (ps.foldl (fun st pm => on_success t pm st) s).last_try_ts = s.last_try_ts
  | [], _ => rfl
  | p :: ps, s => by
    rw [List.foldl_cons, foldl_on_success_last_try t ps (on_success t p s)]
    rfl

/-! The claims. -/

/-- Claim C1. Every 32-byte buffer whose byte 0 is `0x42`, byte 1 is `0x4D`, and
whose last two bytes hold, big-endian, the sum of the first 30 bytes modulo
65536, is decoded successfully by `parse_plantower_frame`, and the result is
exactly the three unsigned 16-bit big-endian ATM concentrations at offsets
10, 12, 14 together with the CF1 triple at offsets 4, 6, 8. -/
theorem C1_decode_valid_frame (frame : List Nat)
    (hlen : frame.length = 32)
    (h0 : frame.getD 0 0 = 0x42) (h1 : frame.getD 1 0 = 0x4D)
    (hcs : u16 (frame.getD 30 0) (frame.getD 31 0) = (frame.take 30).sum % 65536) :
    parse_plantower_frame frame =
      some ⟨⟨u16 (frame.getD 4 0) (frame.getD 5 0),
             u16 (frame.getD 6 0) (frame.getD 7 0),
             u16 (frame.getD 8 0) (frame.getD 9 0)⟩,
            ⟨u16 (frame.getD 10 0) (frame.getD 11 0),
             u16 (frame.getD 12 0) (frame.getD 13 0),
             u16 (frame.getD 14 0) (frame.getD 15 0)⟩⟩ :=
  parse_eq_some_intro frame hlen h0 h1 hcs.symm

/-- Claim C1 witness. The spec's example frame, with ATM field bytes
`00 0A / 00 19 / 00 32`, decodes to PM1=10, PM2.5=25, PM10=50. -/
theorem C1_decode_valid_frame_witness :
    parse_plantower_frame exFrame = some ⟨⟨10, 25, 50⟩, ⟨10, 25, 50⟩⟩ := by
  rw [C1_decode_valid_frame exFrame (by decide) (by decide) (by decide) (by decide)]
  decide

/-- Claim C2. A failed poll attempt turns the status into `"ERR"` exactly when no
success has ever occurred (`last_ok_ts` absent) and into `"WARN"` otherwise;
it records the failure description and leaves the payload and `last_ok_ts`
untouched.  Consequently, over any sequence of worker writes from the initial
state, `"ERR"` is only observable while no success has occurred, and the
payload is still empty whenever no success has occurred. -/
theorem C2_failure_transition (α : Type) (e : String) (s : SensorState α) :
    (on_failure e s).status = (if s.last_ok_ts = none then "ERR" else "WARN")
    ∧ (on_failure e s).error = e
    ∧ (on_failure e s).data = s.data
    ∧ (on_failure e s).last_ok_ts = s.last_ok_ts
    ∧ (∀ evs : List (WorkerEvent α),
        (run evs (initState α)).status = "ERR" → (run evs (initState α)).last_ok_ts = none)
    ∧ (∀ evs : List (WorkerEvent α),
        (run evs (initState α)).last_ok_ts = none → (run evs (initState α)).data = none) := by
  refine ⟨rfl, rfl, rfl, rfl, ?_, ?_⟩
  · intro evs
    exact run_inv (fun st => st.status = "ERR" → st.last_ok_ts = none) step_err_inv
      evs (initState α) (fun hc => by exact absurd hc (by simp [initState]))
  · intro evs
    exact run_inv (fun st => st.last_ok_ts = none → st.data = none) step_empty_inv
      evs (initState α) (fun _ => rfl)

/-- Claim C2 witness. A first-ever failure on the fresh record yields `"ERR"`
with the payload still empty. -/
theorem C2_failure_transition_witness :
    (on_failure "read timeout" (initState PMTriple)).status = "ERR"
    ∧ (run [WorkerEvent.failure "read timeout"] (initState PMTriple)).last_ok_ts = none
    ∧ (run [WorkerEvent.failure "read timeout"] (initState PMTriple)).data = none := by
  have h := C2_failure_transition PMTriple "read timeout" (initState PMTriple)
  refine ⟨by simpa using h.1, ?_, ?_⟩
  · exact h.2.2.2.2.1 [WorkerEvent.failure "read timeout"] (by decide)
  · exact h.2.2.2.2.2 [WorkerEvent.failure "read timeout"]
      (h.2.2.2.2.1 [WorkerEvent.failure "read timeout"] (by decide))

/-- Claim C3 counterexample. The claim says a checksum-valid frame in which *any*
CF1 or ATM concentration exceeds 5000 is discarded.  `cexFrame` is
checksum-valid, its extracted CF1 PM1.0 concentration is 6000 > 5000, yet the
scanner does *not* discard it: its ATM payload 10/25/50 is accepted (the
sanity check of `pms_worker` inspects only the ATM triple). -/
theorem C3_counterexample_cf1_not_dropped :
    parse_plantower_frame cexFrame = some ⟨⟨6000, 25, 50⟩, ⟨10, 25, 50⟩⟩
    ∧ scanFrames cexFrame = ([⟨10, 25, 50⟩], []) := by
  refine ⟨by decide, ?_⟩
  have hacc := scanFrames_accept cexFrame 0 ⟨⟨6000, 25, 50⟩, ⟨10, 25, 50⟩⟩
    (by decide) (by decide) (by decide) (by decide) (by decide) (by decide)
  have hdrop : cexFrame.drop (0 + 32) = [] := by decide
  rw [hacc, hdrop, scanFrames_nil]

/-- Claim C3 (amended). For every checksum-valid frame whose *ATM* triple has a
field exceeding 5000, the frame's payload is discarded without being treated
as an error: the scan of the stream is the same as if the 32 consumed bytes
were absent, so the health record ends up exactly as it would from the rest
of the stream alone (CF1 fields play no part in the sanity check). -/
theorem C3_amended_atm_field_dropped (frame rest : List Nat) (p : ParsedFrame)
    (hp : parse_plantower_frame frame = some p)
    (hbig : 5000 < p.atm.pm25 ∨ 5000 < p.atm.pm10 ∨ 5000 < p.atm.pm1) :
    scanFrames (frame ++ rest) = scanFrames rest
    ∧ ∀ (t : Nat) (s : SensorState PMTriple),
        (scanFrames (frame ++ rest)).1.foldl (fun st pm => on_success t pm st) s
          = (scanFrames rest).1.foldl (fun st pm => on_success t pm st) s := by
  obtain ⟨hlen, h0, h1, -, -⟩ := parse_eq_some_inv frame p hp
  have hlen2 : (frame ++ rest).length = 32 + rest.length := by
    simp [List.length_append, hlen]
  have hm : findMarker (frame ++ rest) = some 0 := by
    refine findMarker_of_marker_head _ (by omega) ?_ ?_
    · rw [List.getD_eq_getElem _ _ (by omega), List.getElem_append_left (by omega),
        ← List.getD_eq_getElem _ 0 (by omega), h0]
    · rw [List.getD_eq_getElem _ _ (by omega), List.getElem_append_left (by omega),
        ← List.getD_eq_getElem _ 0 (by omega), h1]
  have hwin : ((frame ++ rest).drop 0).take 32 = frame := by
    rw [List.drop_zero, List.take_left' hlen]
  have hrest : (frame ++ rest).drop (0 + 32) = rest := List.drop_left' hlen
  have heq : scanFrames (frame ++ rest) = scanFrames rest := by
    have := scanFrames_sanity_drop (frame ++ rest) 0 p hm (by omega) (by rw [hwin]; exact hp) hbig
    rwa [hrest] at this
  exact ⟨heq, fun t s => by rw [heq]⟩

/-- Claim C3 (amended) witness. A frame whose ATM PM1.0 field is 6000 is dropped:
scanning it yields exactly what scanning the empty remainder yields. -/
theorem C3_amended_atm_field_dropped_witness :
    scanFrames (cexAtmFrame ++ []) = scanFrames []
    ∧ parse_plantower_frame cexAtmFrame = some ⟨⟨10, 25, 50⟩, ⟨6000, 25, 50⟩⟩ := by
  exact ⟨(C3_amended_atm_field_dropped cexAtmFrame []
    ⟨⟨10, 25, 50⟩, ⟨6000, 25, 50⟩⟩ (by decide) (by decide)).1, by decide⟩

/-- Claim C4. Over any sequence of worker writes to one health record: the
payload and `last_ok_ts` are written only by a success write (every other
write leaves both exactly as they were), a success write sets them together,
and — the clock read at each success being monotone — `last_ok_ts` never
moves backward across the whole sequence. -/
theorem C4_payload_ok_ts_atomic (α : Type) :
    (∀ (e : WorkerEvent α) (s : SensorState α),
       (∀ (t : Nat) (p : α), e ≠ WorkerEvent.success t p) →
       (step e s).data = s.data ∧ (step e s).last_ok_ts = s.last_ok_ts)
    ∧ (∀ (t : Nat) (p : α) (s : SensorState α),
       (step (WorkerEvent.success t p) s).data = some p
       ∧ (step (WorkerEvent.success t p) s).last_ok_ts = some t)
    ∧ (∀ (evs : List (WorkerEvent α)) (s : SensorState α),
       clockOK s.last_ok_ts evs = true →
       okLe s.last_ok_ts (run evs s).last_ok_ts = true) := by
  refine ⟨?_, fun t p s => ⟨rfl, rfl⟩, fun evs s h => run_ok_mono evs s h⟩
  intro e s hne
  cases e with
  | attempt t => exact ⟨rfl, rfl⟩
  | success t p => exact absurd rfl (hne t p)
  | failure e => exact ⟨rfl, rfl⟩

/-- Claim C4 witness. On a concrete chronological write sequence the final
`last_ok_ts` has not moved backward, and a failure write changes neither
payload nor `last_ok_ts`. -/
theorem C4_payload_ok_ts_atomic_witness :
    okLe (initState PMTriple).last_ok_ts
      (run [WorkerEvent.attempt 1, WorkerEvent.success 2 ⟨1, 2, 3⟩,
            WorkerEvent.failure "glitch", WorkerEvent.success 5 ⟨4, 5, 6⟩]
        (initState PMTriple)).last_ok_ts = true
    ∧ (step (WorkerEvent.failure "glitch") (initState PMTriple)).data
        = (initState PMTriple).data := by
  have h := C4_payload_ok_ts_atomic PMTriple
  refine ⟨h.2.2 _ (initState PMTriple) (by decide), ?_⟩
  exact (h.1 (WorkerEvent.failure "glitch") (initState PMTriple)
    (fun t p hc => WorkerEvent.noConfusion hc)).1

/-- Claim C5. When the marker `0x42 0x4D` is found at index `i` but fewer than 32
bytes (marker included) are available, the pass accepts nothing and retains
the buffer from the marker position onward — the marker bytes are still at
the front of the retained buffer — and once the missing bytes arrive so that
the retained buffer extends to a checksum-valid, sanity-passing 32-byte
frame, scanning it succeeds and yields exactly that frame's ATM triple. -/
theorem C5_incomplete_frame_retained (buf : List Nat) (i : Nat)
    (hm : findMarker buf = some i) (hshort : buf.length < i + 32) :
    scanFrames buf = ([], buf.drop i)
    ∧ (buf.drop i).getD 0 0 = 0x42 ∧ (buf.drop i).getD 1 0 = 0x4D
    ∧ ∀ (ext : List Nat) (p : ParsedFrame),
        parse_plantower_frame (buf.drop i ++ ext) = some p →
        p.atm.pm25 ≤ 5000 → p.atm.pm10 ≤ 5000 → p.atm.pm1 ≤ 5000 →
        scanFrames (buf.drop i ++ ext) = ([p.atm], []) := by
  obtain ⟨t, ht⟩ := findMarker_some_shape buf i hm
  refine ⟨scanFrames_incomplete buf i hm hshort, by rw [ht]; rfl, by rw [ht]; rfl, ?_⟩
  intro ext p hp h25 h10 h1
  obtain ⟨hlen, h0, hh1, -, -⟩ := parse_eq_some_inv _ p hp
  have hm0 : findMarker (buf.drop i ++ ext) = some 0 :=
    findMarker_of_marker_head _ (by omega) h0 hh1
  have hwin : ((buf.drop i ++ ext).drop 0).take 32 = buf.drop i ++ ext := by
    rw [List.drop_zero]; exact List.take_of_length_le (by omega)
  have hrest : (buf.drop i ++ ext).drop (0 + 32) = [] :=
    List.drop_eq_nil_of_le (by omega)
  have hacc := scanFrames_accept (buf.drop i ++ ext) 0 p hm0 (by omega)
    (by rw [hwin]; exact hp) h25 h10 h1
  rw [hacc, hrest, scanFrames_nil]

/-- Claim C5 witness. A buffer holding one noise byte, the marker and one more
byte is retained from the marker on; completing it to the example frame and
rescanning decodes exactly that frame. -/
theorem C5_incomplete_frame_retained_witness :
    scanFrames [0x00, 0x42, 0x4D, 0x00] = ([], [0x42, 0x4D, 0x00])
    ∧ scanFrames ([0x42, 0x4D, 0x00] ++ exFrame.drop 3) = ([⟨10, 25, 50⟩], []) := by
  have h := C5_incomplete_frame_retained [0x00, 0x42, 0x4D, 0x00] 1 (by decide) (by decide)
  constructor
  · simpa using h.1
  · have h2 := h.2.2.2 (exFrame.drop 3) ⟨⟨10, 25, 50⟩, ⟨10, 25, 50⟩⟩
      (by decide) (by decide) (by decide) (by decide)
    simpa using h2

/-- Claim C6. When a full 32-byte window is available at a found marker but its
trailing two bytes do not hold the sum of the window's first 30 bytes modulo
65536, decoding fails for that window and the pass continues on the buffer
past the whole consumed 32 bytes (`buf[i+32:]`), not merely past the marker,
so the same bad window is never rescanned. -/
theorem C6_checksum_mismatch_advances_32 (buf : List Nat) (i : Nat)
    (hm : findMarker buf = some i) (hlen : i + 32 ≤ buf.length)
    (hcs : u16 (((buf.drop i).take 32).getD 30 0) (((buf.drop i).take 32).getD 31 0)
           ≠ ((((buf.drop i).take 32).take 30).sum) % 65536) :
    parse_plantower_frame ((buf.drop i).take 32) = none
    ∧ scanFrames buf = scanFrames (buf.drop (i + 32)) := by
  obtain ⟨t, ht⟩ := findMarker_some_shape buf i hm
  have hwl : ((buf.drop i).take 32).length = 32 := by
    rw [List.length_take, List.length_drop]; omega
  have h0 : ((buf.drop i).take 32).getD 0 0 = 0x42 := by
    rw [ht]; rfl
  have h1 : ((buf.drop i).take 32).getD 1 0 = 0x4D := by
    rw [ht]
    have h32 : (2 : Nat) ≤ 32 := by omega
    match t with
    | [] =>
      exfalso
      have := congrArg List.length ht
      simp [List.length_drop] at this
      omega
    | _ :: _ => rfl
  have hnone : parse_plantower_frame ((buf.drop i).take 32) = none := by
    unfold parse_plantower_frame
    rw [if_neg (by rw [hwl]; simp), if_neg (by rw [h0, h1]; simp), if_pos (by omega)]
  exact ⟨hnone, scanFrames_badframe buf i hm (by omega) hnone⟩

/-- Claim C6 witness. The example frame with its low checksum byte corrupted
fails to decode, and scanning advances past all 32 bytes. -/
theorem C6_checksum_mismatch_advances_32_witness :
    parse_plantower_frame badFrame = none
    ∧ scanFrames badFrame = scanFrames (badFrame.drop 32) := by
  have h := C6_checksum_mismatch_advances_32 badFrame 0 (by decide) (by decide) (by decide)
  simpa using h

/-! Pointwise helpers about `List.set`, `getD` and sums, for the single-byte
corruption claim. -/

theorem getD_set_ne (l : List Nat) (j k v d : Nat) (h : j ≠ k) :
    (l.set j v).getD k d = l.getD k d := by
  simp [List.getD, List.getElem?_set_ne h]

theorem getD_set_self (l : List Nat) (j v d : Nat) (h : j < l.length) :
    (l.set j v).getD j d = v := by
  simp [List.getD, List.getElem?_set_self, h]

theorem getD_take_lt (l : List Nat) (n j d : Nat) (h : j < n) :
    (l.take n).getD j d = l.getD j d := by
  simp [List.getD, List.getElem?_take, h]

theorem sum_set_getD (l : List Nat) (j v : Nat) (hj : j < l.length) :
    (l.set j v).sum + l.getD j 0 = l.sum + v := by
  induction l generalizing j with
  | nil => simp at hj
  | cons a t ih =>
    cases j with
    | zero => simp; omega
    | succ j =>
      have hj' : j < t.length := by simpa using hj
      have hrec := ih j hj'
      simp only [List.set, List.getD_cons_succ, List.sum_cons]
      omega

theorem getD_lt_256 (l : List Nat) (j : Nat) (hb : ∀ b ∈ l, b < 256)
    (hj : j < l.length) : l.getD j 0 < 256 := by
  rw [List.getD_eq_getElem l 0 hj]
  exact hb _ (List.getElem_mem hj)

/-- Claim C7. Take any frame the decoder accepts, made of bytes, and flip any
single byte among positions 0–29 to a different byte value while leaving the
two checksum bytes alone: the decoder rejects the corrupted frame (header
mismatch for positions 0–1, checksum mismatch otherwise).  The decoder is a
total function, so no input can crash it. -/
theorem C7_single_byte_corruption_fails (frame : List Nat) (p : ParsedFrame) (j v : Nat)
    (hbytes : ∀ b ∈ frame, b < 256)
    (hp : parse_plantower_frame frame = some p)
    (hj : j < 30) (hv : v < 256) (hne : v ≠ frame.getD j 0) :
    parse_plantower_frame (frame.set j v) = none := by
  obtain ⟨hlen, h0, h1, hcs, -⟩ := parse_eq_some_inv frame p hp
  have hlset : (frame.set j v).length = 32 := by rw [List.length_set, hlen]
  by_cases hj0 : j = 0
  · subst hj0
    have hg : (frame.set 0 v).getD 0 0 = v := getD_set_self frame 0 v 0 (by omega)
    unfold parse_plantower_frame
    rw [if_neg (by rw [hlset]; simp), if_pos (Or.inl (by rw [hg, h0] at *; omega))]
  · by_cases hj1 : j = 1
    · subst hj1
      have hg : (frame.set 1 v).getD 1 0 = v := getD_set_self frame 1 v 0 (by omega)
      unfold parse_plantower_frame
      rw [if_neg (by rw [hlset]; simp), if_pos (Or.inr (by rw [hg, h1] at *; omega))]
    · have hg0 : (frame.set j v).getD 0 0 = 0x42 := by
        rw [getD_set_ne frame j 0 v 0 hj0, h0]
      have hg1 : (frame.set j v).getD 1 0 = 0x4D := by
        rw [getD_set_ne frame j 1 v 0 hj1, h1]
      have hg30 : (frame.set j v).getD 30 0 = frame.getD 30 0 :=
        getD_set_ne frame j 30 v 0 (by omega)
      have hg31 : (frame.set j v).getD 31 0 = frame.getD 31 0 :=
        getD_set_ne frame j 31 v 0 (by omega)
      have htake : (frame.set j v).take 30 = (frame.take 30).set j v := List.set_take
      have hLlen : (frame.take 30).length = 30 := by
        rw [List.length_take, hlen]
        omega
      have hsum := sum_set_getD (frame.take 30) j v (by omega)
      rw [getD_take_lt frame 30 j 0 hj] at hsum
      have hfj : frame.getD j 0 < 256 := getD_lt_256 frame j hbytes (by omega)
      have hmis : ((frame.set j v).take 30).sum % 65536
          ≠ u16 ((frame.set j v).getD 30 0) ((frame.set j v).getD 31 0) := by
        rw [htake, hg30, hg31, ← hcs]
        omega
      unfold parse_plantower_frame
      rw [if_neg (by rw [hlset]; simp), if_neg (by rw [hg0, hg1]; simp), if_pos hmis]

/-- Claim C7 witness. Corrupting byte 4 of the example frame (CF1 PM1.0 high
byte, `0x00 → 0x01`) without touching the checksum bytes makes the decoder
reject the frame. -/
theorem C7_single_byte_corruption_fails_witness :
    parse_plantower_frame (exFrame.set 4 0x01) = none :=
  C7_single_byte_corruption_fails exFrame ⟨⟨10, 25, 50⟩, ⟨10, 25, 50⟩⟩ 4 0x01
    (by decide) (by decide) (by decide) (by decide) (by decide)

/-- Claim C8 counterexample. In `pms_worker`, `last_try_ts` is written only
inside the `with serial.Serial(...)` block; when opening the port raises,
control jumps straight to the `except` handler (`on_failure`), which touches
only `status` and `error`.  So a transport-open failure of the serial sensor
records an attempt failure yet leaves `last_try_ts` unset — contradicting
the claim that every poll attempt, including transport-open failures,
updates `last_attempt_time` at its start. -/
theorem C8_counterexample_open_failure_no_try_ts :
    (on_failure "could not open port" (initState PMTriple)).status = "ERR"
    ∧ (on_failure "could not open port" (initState PMTriple)).error = "could not open port"
    ∧ (on_failure "could not open port" (initState PMTriple)).last_try_ts = none :=
  ⟨rfl, rfl, rfl⟩

/-- Claim C8 (amended). For the register sensor, `last_try_ts` is updated
immediately before the bus transaction on every iteration, whatever the
outcome.  For the serial sensor it is updated at the start of every read
cycle on an open transport — including cycles that read partial data, no
data, or only corrupt frames — but the failure handler itself never writes
it, so an attempt that fails while opening the serial transport leaves it
unchanged. -/
theorem C8_amended_attempt_timestamp (β : Type) :
    (∀ (t : Nat) (chunk : List Nat) (st : List Nat × SensorState PMTriple),
       (pms_cycle t chunk st).2.last_try_ts = some t)
    ∧ (∀ (t : Nat) (res : BmpResult β) (s : SensorState β),
       (bmp_iter t res s).last_try_ts = some t)
    ∧ (∀ (e : String) (s : SensorState β),
       (on_failure e s).last_try_ts = s.last_try_ts) := by
  refine ⟨?_, ?_, fun e s => rfl⟩
  · intro t chunk st
    show ((scanFrames (st.1 ++ chunk)).1.foldl (fun s pm => on_success t pm s)
      { st.2 with last_try_ts := some t }).last_try_ts = some t
    rw [foldl_on_success_last_try]
  · intro t res s
    cases res with
    | ok r => rfl
    | fail e => rfl

/-! Helper lemmas for the BMP280 address-discovery loop. -/

theorem scanAddrs_first_ok (probe : Nat → Except String β) :
    ∀ (pre : List Nat) (a : Nat) (post : List Nat) (d : β),
      (∀ b ∈ pre, ∃ e, probe b = Except.error e) → probe a = Except.ok d →
      scanAddrs probe (pre ++ a :: post) = (some d, none)
  | [], a, post, d, _, ha => by simp [scanAddrs, ha]
  | b :: pre, a, post, d, hpre, ha => by
    obtain ⟨e, he⟩ := hpre b (by simp)
    have hrec := scanAddrs_first_ok probe pre a post d
      (fun x hx => hpre x (by simp [hx])) ha
    simp [scanAddrs, he, hrec]

theorem scanAddrs_all_fail (probe : Nat → Except String β) :
    ∀ (addrs : List Nat) (a : Nat) (e : String),
      addrs.getLast? = some a → probe a = Except.error e →
      (∀ b ∈ addrs, ∃ e2, probe b = Except.error e2) →
      scanAddrs probe addrs = (none, some e)
  | [], a, e, hlast, _, _ => by simp at hlast
  | [b], a, e, hlast, ha, _ => by
    simp at hlast
    subst hlast
    simp [scanAddrs, ha]
  | b :: c :: t, a, e, hlast, ha, hall => by
    obtain ⟨eb, heb⟩ := hall b (by simp)
    have hlast' : (c :: t).getLast? = some a := by simpa using hlast
    have hrec := scanAddrs_all_fail probe (c :: t) a e hlast' ha
      (fun x hx => hall x (by simp [hx]))
    have hstep : scanAddrs probe (b :: c :: t) =
        match probe b with
        | .ok d => (some d, none)
        | .error e' =>
          match scanAddrs probe (c :: t) with
          | (some d, _) => (some d, none)
          | (none, none) => (none, some e')
          | (none, some e2) => (none, some e2) := rfl
    rw [hstep, heb, hrec]

theorem scanAddrs_none_all_fail (probe : Nat → Except String β) :
    ∀ (addrs : List Nat), (scanAddrs probe addrs).1 = none →
      ∀ b ∈ addrs, ∃ e, probe b = Except.error e := by
  intro addrs
  induction addrs with
  | nil => intro _ b hb; simp at hb
  | cons a rest ih =>
    intro h b hb
    match ha : probe a with
    | .ok d =>
      rw [show scanAddrs probe (a :: rest) = (some d, none) from by simp [scanAddrs, ha]] at h
      simp at h
    | .error e =>
      have hrest : (scanAddrs probe rest).1 = none := by
        match hr : scanAddrs probe rest with
        | (some d, le) =>
          have hall : scanAddrs probe (a :: rest) = (some d, none) := by
            simp [scanAddrs, ha, hr]
          rw [hall] at h
          simp at h
        | (none, le) => rfl
      rcases List.mem_cons.mp hb with rfl | hb2
      · exact ⟨e, ha⟩
      · exact ih hrest b hb2

/-- Claim C9. The BMP280 reader probes the candidate addresses in list order and
binds to the first one whose identification handshake succeeds (earlier
addresses having all failed), with `last_err` reset to `None`; when every
candidate fails, the loop ends with no device and the *last* underlying
fault as `last_err`, which is exactly the error the worker then raises and
records; and whenever the loop ends with no device bound, every candidate
address did fail. -/
theorem C9_address_discovery (β : Type) (probe : Nat → Except String β) :
    (∀ (pre post : List Nat) (a : Nat) (d : β),
       (∀ b ∈ pre, ∃ e, probe b = Except.error e) →
       probe a = Except.ok d →
       scanAddrs probe (pre ++ a :: post) = (some d, none))
    ∧ (∀ (addrs : List Nat) (a : Nat) (e : String),
       addrs.getLast? = some a → probe a = Except.error e →
       (∀ b ∈ addrs, ∃ e2, probe b = Except.error e2) →
       scanAddrs probe addrs = (none, some e))
    ∧ (∀ addrs : List Nat, (scanAddrs probe addrs).1 = none →
       ∀ b ∈ addrs, ∃ e, probe b = Except.error e) :=
  ⟨fun pre post a d hpre ha => scanAddrs_first_ok probe pre a post d hpre ha,
   fun addrs a e hlast ha hall => scanAddrs_all_fail probe addrs a e hlast ha hall,
   fun addrs h => scanAddrs_none_all_fail probe addrs h⟩

/-- Claim C9 witness. With `0x76` absent and `0x77` answering, the loop binds to
`0x77`; with the bus absent (every probe raising the same I/O fault), the
loop ends with that fault preserved. -/
theorem C9_address_discovery_witness :
    scanAddrs (fun a => if a = 0x76 then Except.error "no device at 0x76"
      else Except.ok (280 : Nat)) [0x76, 0x77] = (some 280, none)
    ∧ scanAddrs (fun _ => (Except.error "Remote I/O error" : Except String Nat))
      [0x76, 0x77] = (none, some "Remote I/O error") := by
  constructor
  · have h := (C9_address_discovery Nat
      (fun a => if a = 0x76 then Except.error "no device at 0x76" else Except.ok 280)).1
      [0x76] [] 0x77 280 (fun b hb => ⟨"no device at 0x76", by simp at hb; simp [hb]⟩)
      (by simp)
    simpa using h
  · exact (C9_address_discovery Nat
      (fun _ => Except.error "Remote I/O error")).2.1 [0x76, 0x77] 0x77 "Remote I/O error"
      rfl rfl (fun b _ => ⟨"Remote I/O error", rfl⟩)

/-! Buffer-bound helpers for the resynchronizer. -/

theorem scanFrames_rem_le_aux (n : Nat) : ∀ buf : List Nat, buf.length ≤ n →
    (scanFrames buf).2.length ≤ 31 := by
  induction n with
  | zero =>
    intro buf h
    obtain rfl : buf = [] := List.eq_nil_of_length_eq_zero (by omega)
    rw [scanFrames_nil]
    simp
  | succ n ih =>
    intro buf hn
    match hm : findMarker buf with
    | none =>
      rw [scanFrames_no_marker buf hm]
      by_cases h1 : 1 < buf.length
      · simp only [if_pos h1, List.length_drop]
        omega
      · simp only [if_neg h1]
        omega
    | some i =>
      by_cases hs : buf.length < i + 32
      · rw [scanFrames_incomplete buf i hm hs]
        simp only [List.length_drop]
        omega
      · have hi2 := findMarker_some_le buf i hm
        have hrec : (buf.drop (i + 32)).length ≤ n := by
          simp only [List.length_drop]
          omega
        match hp : parse_plantower_frame ((buf.drop i).take 32) with
        | none =>
          rw [scanFrames_badframe buf i hm hs hp]
          exact ih _ hrec
        | some p =>
          by_cases hbig : 5000 < p.atm.pm25 ∨ 5000 < p.atm.pm10 ∨ 5000 < p.atm.pm1
          · rw [scanFrames_sanity_drop buf i p hm hs hp hbig]
            exact ih _ hrec
          · push_neg at hbig
            rw [scanFrames_accept buf i p hm hs hp hbig.1 hbig.2.1 hbig.2.2]
            exact ih _ hrec

theorem scanFrames_rem_le (buf : List Nat) : (scanFrames buf).2.length ≤ 31 :=
  scanFrames_rem_le_aux buf.length buf (le_refl _)

theorem scanFrames_rem_no_marker (buf : List Nat) (h : findMarker buf = none) :
    (scanFrames buf).2.length ≤ 1 := by
  rw [scanFrames_no_marker buf h]
  by_cases h1 : 1 < buf.length
  · simp only [if_pos h1, List.length_drop]
    omega
  · simp only [if_neg h1]
    omega

/-- Claim C10. After every completed frame-scanning pass, the retained buffer
holds fewer than 32 bytes — at most 31 in general (a marker with an
incomplete frame), and at most 1 byte when the scanned buffer held no
synchronization marker — so appending the next chunk of at most 128 bytes
never pushes the buffer past 159 bytes. -/
theorem C10_buffer_bounded (buf : List Nat) :
    (scanFrames buf).2.length ≤ 31
    ∧ (findMarker buf = none → (scanFrames buf).2.length ≤ 1)
    ∧ ∀ chunk : List Nat, chunk.length ≤ 128 →
        ((scanFrames buf).2 ++ chunk).length ≤ 159 := by
  refine ⟨scanFrames_rem_le buf, fun h => scanFrames_rem_no_marker buf h, fun chunk hc => ?_⟩
  have hb := scanFrames_rem_le buf
  rw [List.length_append]
  omega

/-- Claim C10 witness. A retained incomplete frame stays under 32 bytes, a
markerless buffer keeps at most one byte, and a full 128-byte chunk appended
to a retained buffer stays under 160 bytes. -/
theorem C10_buffer_bounded_witness :
    (scanFrames [0x42, 0x4D, 0x00]).2.length ≤ 31
    ∧ (scanFrames [0x00, 0x01]).2.length ≤ 1
    ∧ ((scanFrames [0x00, 0x01]).2 ++ List.replicate 128 0).length ≤ 159 := by
  have h1 := C10_buffer_bounded [0x42, 0x4D, 0x00]
  have h2 := C10_buffer_bounded [0x00, 0x01]
  exact ⟨h1.1, h2.2.1 (by decide), h2.2.2 (List.replicate 128 0) (by simp)⟩

end Pogodynka
